import Mathlib

/-!
Verification of the catwatch asynchronous photo-optimization pipeline
(`internal/backend` image optimizer and its storage helpers).

Modelling conventions:
* Byte buffers are `List Nat` (each entry a byte value); indexed reads use
  `List.getD _ _ 0`, matching the Go code whose every access is bounds-guarded
  (out-of-range reads cannot occur on the guarded paths, and the helper
  readers `u16`/`u32` explicitly return 0 when out of range).
* Go `float64` arithmetic on sizes and scales is modelled by exact rationals
  (`ℚ`); machine integers are `Nat`.
* External image codecs (`image.Decode`, `webp.Decode`, `webp.Encode`) and the
  pixel resampler are parameters of the model (they are third-party libraries,
  not part of this repository); everything else is translated from the source.
-/

namespace Catwatch

/-! ## Binary metadata reader (`parseEXIFOrientationJPEG`, `parseTIFFOrientation`) -/

/-- Big-endian 16-bit read at offset `i` (Go `binary.BigEndian.Uint16(b[i:i+2])`). -/
def beU16 (b : List Nat) (i : Nat) : Nat :=
  256 * b.getD i 0 + b.getD (i + 1) 0

/-- Go `looksLikeJPEG`: `len(b) >= 2 && b[0] == 0xFF && b[1] == 0xD8`. -/
def looksLikeJPEG (b : List Nat) : Bool :=
  decide (2 ≤ b.length ∧ b.getD 0 0 = 0xFF ∧ b.getD 1 0 = 0xD8)

/-- Go check `string(seg[:6]) == "Exif\x00\x00"` where `seg` starts at byte `i+4`
of the JPEG buffer (the `len(seg) >= 6` guard is implied by `segLen >= 10`). -/
def exifHeaderAt (b : List Nat) (i : Nat) : Bool :=
  decide (b.getD (i + 4) 0 = 0x45 ∧ b.getD (i + 5) 0 = 0x78 ∧
    b.getD (i + 6) 0 = 0x69 ∧ b.getD (i + 7) 0 = 0x66 ∧
    b.getD (i + 8) 0 = 0 ∧ b.getD (i + 9) 0 = 0)

/-- The TIFF block `seg[6:]` of the APP1 segment whose `0xFF` byte sits at
offset `i`: bytes `i+10 .. i+2+segLen` of the JPEG buffer. -/
def tiffAt (b : List Nat) (i : Nat) : List Nat :=
  (b.drop (i + 10)).take (beU16 b (i + 2) - 8)

/-- Go closure `u16` in `parseTIFFOrientation`: endianness-dependent 16-bit read,
returning 0 when fewer than 2 bytes remain. -/
def tu16 (le : Bool) (t : List Nat) (p : Nat) : Nat :=
  if p + 2 ≤ t.length then
    if le then t.getD p 0 + 256 * t.getD (p + 1) 0
    else 256 * t.getD p 0 + t.getD (p + 1) 0
  else 0

/-- Go closure `u32` in `parseTIFFOrientation`: endianness-dependent 32-bit read,
returning 0 when fewer than 4 bytes remain. -/
def tu32 (le : Bool) (t : List Nat) (p : Nat) : Nat :=
  if p + 4 ≤ t.length then
    if le then
      t.getD p 0 + 256 * t.getD (p + 1) 0 +
        65536 * t.getD (p + 2) 0 + 16777216 * t.getD (p + 3) 0
    else
      16777216 * t.getD p 0 + 65536 * t.getD (p + 1) 0 +
        256 * t.getD (p + 2) 0 + t.getD (p + 3) 0
  else 0

/-- The IFD entry scan of `parseTIFFOrientation`: Go
`for i := 0; i < count; i++ { ... pos += 12 }`, the fuel argument playing the
role of `count - i`.  An entry is returned exactly when
`tag == 0x0112 && typ == 3 && cnt >= 1` and the inline value is in `[1,8]`;
otherwise the scan advances 12 bytes, and it stops early when fewer than 12
bytes remain at `pos`. -/
def ifdScan (le : Bool) (t : List Nat) : Nat → Nat → Nat × Bool
  | 0, _ => (1, false)
  | n + 1, pos =>
    if t.length < pos + 12 then (1, false)
    else if tu16 le t pos = 0x0112 ∧ tu16 le t (pos + 2) = 3 ∧
        1 ≤ tu32 le t (pos + 4) ∧ 1 ≤ tu16 le t (pos + 8) ∧ tu16 le t (pos + 8) ≤ 8 then
      (tu16 le t (pos + 8), true)
    else ifdScan le t n (pos + 12)

/-- Go `parseTIFFOrientation`: byte-order marker, magic 42, first-IFD offset,
then the entry scan.  `"II"` is bytes `(73,73)`, `"MM"` is `(77,77)`; Go's
`off0 <= 0` is `off0 = 0` since `off0` is a converted `uint32`. -/
def parseTIFFOrientation (t : List Nat) : Nat × Bool :=
  if t.length < 8 then (1, false)
  else if t.getD 0 0 = 73 ∧ t.getD 1 0 = 73 then parseTIFFBody true t
  else if t.getD 0 0 = 77 ∧ t.getD 1 0 = 77 then parseTIFFBody false t
  else (1, false)
where
  parseTIFFBody (le : Bool) (t : List Nat) : Nat × Bool :=
    if tu16 le t 2 ≠ 42 then (1, false)
    else
      if tu32 le t 4 = 0 ∨ t.length < tu32 le t 4 + 2 then (1, false)
      else ifdScan le t (tu16 le t (tu32 le t 4)) (tu32 le t 4 + 2)

/-- The marker-segment walk of `parseEXIFOrientationJPEG`, Go
`for i+4 <= len(b) { ... }` starting at `i = 2`.  Each iteration reads the
`0xFF` byte, the marker, the big-endian segment length, and either stops (bad
sync byte, SOS/EOI marker, bad length), returns a parsed APP1 Exif
orientation, or skips to the next segment.  The two Go guards
`i >= len(b)` (after the first `i++`) and `i+2 > len(b)` (before the length
read) are kept even though the loop condition already implies they fail. -/
def jpegScan (b : List Nat) (i : Nat) : Nat × Bool :=
  if _h4 : i + 4 ≤ b.length then
    if b.getD i 0 = 0xFF then
      if b.length ≤ i + 1 then (1, false)
      else if b.getD (i + 1) 0 = 0xDA ∨ b.getD (i + 1) 0 = 0xD9 then (1, false)
      else if b.length < i + 4 then (1, false)
      else if _hseg : beU16 b (i + 2) < 2 ∨ b.length < i + 2 + beU16 b (i + 2) then (1, false)
      else if b.getD (i + 1) 0 = 0xE1 ∧ 10 ≤ beU16 b (i + 2) then
        if exifHeaderAt b i then
          match parseTIFFOrientation (tiffAt b i) with
          | (v, true) => (v, true)
          | (_, false) => jpegScan b (i + 2 + beU16 b (i + 2))
        else jpegScan b (i + 2 + beU16 b (i + 2))
      else jpegScan b (i + 2 + beU16 b (i + 2))
    else (1, false)
  else (1, false)
termination_by b.length - i
decreasing_by all_goals omega

/-- Go `parseEXIFOrientationJPEG`: JPEG signature check, then the marker walk
from offset 2. -/
def parseEXIFOrientationJPEG (b : List Nat) : Nat × Bool :=
  if looksLikeJPEG b then jpegScan b 2 else (1, false)

/-! ## Image transform engine (`transformByOrientation`, `applyEXIFOrientation`) -/

/-- A decoded image: width, height, and the pixel grid.  The Go `image.Image`
bounds are normalized so that `Min = (0,0)` (the source always reads via
`b.Min.X + x`, `b.Min.Y + y`); pixel values are kept abstract (the Go
`dst.Set`/`src.At` round-trip through RGBA is a per-pixel color conversion
orthogonal to the geometry). -/
structure Img (α : Type) where
  w : Nat
  h : Nat
  pix : Nat → Nat → α

/-- Go `transformByOrientation`.  Each case of the source fills a fresh canvas
by `dst.Set(f(x,y), src.At(x,y))` over all `x < w, y < h`; since each `f` is a
bijection of the target rectangle, the canvas is equivalently given by its
lookup function, recorded here (e.g. case 2 sets `dst(w-1-x, y) = src(x, y)`,
i.e. `dst(X, Y) = src(w-1-X, Y)`).  Cases 5–8 swap the canvas dimensions,
matching `image.Rect(0, 0, h, w)` in the source; any other code returns the
image unchanged. -/
def transformByOrientation (src : Img α) (ori : Nat) : Img α :=
  match ori with
  | 2 => ⟨src.w, src.h, fun x y => src.pix (src.w - 1 - x) y⟩             -- flip horizontal
  | 3 => ⟨src.w, src.h, fun x y => src.pix (src.w - 1 - x) (src.h - 1 - y)⟩ -- rotate 180
  | 4 => ⟨src.w, src.h, fun x y => src.pix x (src.h - 1 - y)⟩             -- flip vertical
  | 5 => ⟨src.h, src.w, fun x y => src.pix y x⟩                           -- transpose
  | 6 => ⟨src.h, src.w, fun x y => src.pix y (src.h - 1 - x)⟩             -- rotate 90 CW
  | 7 => ⟨src.h, src.w, fun x y => src.pix (src.w - 1 - y) (src.h - 1 - x)⟩ -- transverse
  | 8 => ⟨src.h, src.w, fun x y => src.pix (src.w - 1 - y) x⟩             -- rotate 90 CCW
  | _ => src

/-- Go `applyEXIFOrientation`: only for JPEG byte signatures, and only when the
parser reports success with a code in `[2,8]`, is the transform applied. -/
def applyEXIFOrientationModel (b : List Nat) (img : Img α) : Img α :=
  if looksLikeJPEG b then
    match parseEXIFOrientationJPEG b with
    | (ori, true) => if 2 ≤ ori ∧ ori ≤ 8 then transformByOrientation img ori else img
    | (_, false) => img
  else img

/-! ## Decode fallback chain and the optimize pipeline (`optimizeBytes`) -/

/-- The two external decoders used by `optimizeBytes`: `xwebp.Decode`
(golang.org/x/image/webp) and the generic `image.Decode`.  They are pure
parameters; `none` models a decode error. -/
structure Decoders (α : Type) where
  webpDecode : List Nat → Option (Img α)
  imageDecode : List Nat → Option (Img α)

/-- Go `strings.Contains(strings.ToLower(mime), "webp")` (MIME strings are
ASCII, so per-character `Char.toLower` matches Go's `strings.ToLower`). -/
def mimeHasWebP (mime : String) : Bool :=
  decide (List.IsInfix ['w', 'e', 'b', 'p'] (mime.toList.map Char.toLower))

/-- The decode step of `optimizeBytes`: for a WebP-declared MIME, `xwebp.Decode`
first with `image.Decode` as fallback; otherwise `image.Decode` first with
`xwebp.Decode` as fallback (mislabeled uploads). -/
def decodeImage (d : Decoders α) (mime : String) (b : List Nat) : Option (Img α) :=
  if mimeHasWebP mime then
    match d.webpDecode b with
    | some img => some img
    | none =>
      match d.imageDecode b with
      | some img => some img
      | none => none
  else
    match d.imageDecode b with
    | some img => some img
    | none =>
      match d.webpDecode b with
      | some img => some img
      | none => none

/-- Decode chain as the specification words it: for an alternate-codec MIME,
try the codec decoder, then the general decoder, then the codec decoder again
as a last resort; otherwise the general decoder with the codec decoder as
fallback.  Stated from the spec for comparison with `decodeImage`. -/
def decodeChainClaim (d : Decoders α) (mime : String) (b : List Nat) : Option (Img α) :=
  if mimeHasWebP mime then
    match d.webpDecode b with
    | some img => some img
    | none =>
      match d.imageDecode b with
      | some img => some img
      | none =>
        match d.webpDecode b with
        | some img => some img
        | none => none
  else
    match d.imageDecode b with
    | some img => some img
    | none =>
      match d.webpDecode b with
      | some img => some img
      | none => none

/-- Source constant `imgOptMaxW = 300`. -/
def imgOptMaxW : Nat := 300

/-- Source constant `imgOptMaxH = 300`. -/
def imgOptMaxH : Nat := 300

/-- Source constant `imgOptMinGainRatio = 0.03` (exact rational model of the
`float64` constant). -/
def imgOptMinGainRatio : ℚ := 3 / 100

/-- Go `scale := math.Min(float64(maxW)/float64(w), float64(maxH)/float64(h))`. -/
def computeScale (w h maxW maxH : Nat) : ℚ :=
  min ((maxW : ℚ) / (w : ℚ)) ((maxH : ℚ) / (h : ℚ))

/-- Go `int(math.Max(1, math.Round(float64(w)*scale)))`; `math.Round` rounds
half away from zero, which on the positive values arising here coincides with
Mathlib's `round` (half up). -/
def roundDim (w : Nat) (scale : ℚ) : Nat :=
  (max 1 (round ((w : ℚ) * scale))).toNat

/-- Output pixel dimensions of `optimizeBytes`: unchanged when
`scale >= 1.0`, otherwise the rounded-and-clamped downscale target
`(newW, newH)`. -/
def targetDims (w h maxW maxH : Nat) : Nat × Nat :=
  if 1 ≤ computeScale w h maxW maxH then (w, h)
  else (roundDim w (computeScale w h maxW maxH), roundDim h (computeScale w h maxW maxH))

/-- The image handed to `encodeWebP`: the decoded (orientation-corrected)
image itself when no resize is needed, otherwise
`resizeHighQuality(img, newW, newH)` (the resampler is a parameter of the
model). -/
def encodeTarget (resample : Img α → Nat → Nat → Img α) (img : Img α)
    (maxW maxH : Nat) : Img α :=
  if 1 ≤ computeScale img.w img.h maxW maxH then img
  else resample img (targetDims img.w img.h maxW maxH).1 (targetDims img.w img.h maxW maxH).2

/-- The gain check duplicated at the two return sites of `optimizeBytes`:
`if len(b) > 0 { gain := float64(len(b)-len(newData))/float64(len(b)); if gain <
imgOptMinGainRatio { return b, true, mime, nil } }; return newData, false,
"image/webp", nil`. -/
def gainDecide (b : List Nat) (mime : String) (newData : List Nat) :
    List Nat × Bool × String :=
  if 0 < b.length ∧
      ((b.length : ℚ) - (newData.length : ℚ)) / (b.length : ℚ) < imgOptMinGainRatio then
    (b, true, mime)
  else (newData, false, "image/webp")

/-- Go `optimizeBytes(b, mime, maxW, maxH)` modulo the external codecs:
decode (with fallback chain), apply EXIF orientation, validate dimensions,
re-encode (after a downscale when `scale < 1.0`), and run the gain check.
Returns `none` where the source returns a non-nil error. -/
def optimizeBytesModel (d : Decoders α) (enc : Img α → Option (List Nat))
    (resample : Img α → Nat → Nat → Img α) (b : List Nat) (mime : String)
    (maxW maxH : Nat) : Option (List Nat × Bool × String) :=
  match decodeImage d mime b with
  | none => none
  | some img0 =>
    let img := applyEXIFOrientationModel b img0
    if img.w = 0 ∨ img.h = 0 then none
    else
      match enc (encodeTarget resample img maxW maxH) with
      | none => none
      | some newData => some (gainDecide b mime newData)

/-! ## Storage model and the batch processor (`optimizeImagesBatch`) -/

/-- The `storage.Image` columns the optimizer touches.  `id` stands for the
`char(36)` primary key; the store itself is a `List ImageRec` kept in
`created_at` order, so GORM's `Order("created_at").Limit(n)` is `List.take n`
of the filtered list.  A SQL `NULL` in `optimized` is eligible exactly like
`false`, so the Boolean field covers both eligible states. -/
structure ImageRec where
  id : Nat
  data : List Nat
  mime : String
  optimized : Bool
  updatedAt : Nat
deriving DecidableEq, Repr

/-- Go `Store.ListImagesToOptimize`: up to `limit` records with
`optimized = false OR optimized IS NULL`, oldest first. -/
def ListImagesToOptimize (store : List ImageRec) (limit : Nat) : List ImageRec :=
  (store.filter fun r => !r.optimized).take limit

/-- Go `Store.MarkImageOptimizedEmpty`: `UPDATE ... SET optimized = true WHERE id = ?`. -/
def markImageOptimizedEmpty (store : List ImageRec) (id : Nat) : List ImageRec :=
  store.map fun r => if r.id = id then { r with optimized := true } else r

/-- Go `Store.MarkImageOptimizedNoChange`: sets `optimized = true` and bumps
`updated_at`, leaving `data`/`mime` alone. -/
def markImageOptimizedNoChange (store : List ImageRec) (id now : Nat) : List ImageRec :=
  store.map fun r =>
    if r.id = id then { r with optimized := true, updatedAt := now } else r

/-- Go `Store.UpdateImageOptimizedData`: replaces `data`/`mime`, sets
`optimized = true`, bumps `updated_at`. -/
def updateImageOptimizedData (store : List ImageRec) (id : Nat) (data : List Nat)
    (mime : String) (now : Nat) : List ImageRec :=
  store.map fun r =>
    if r.id = id then
      { r with data := data, mime := mime, optimized := true, updatedAt := now }
    else r

/-- The counters of `optStats`. -/
structure optStats where
  found : Nat
  resized : Nat
  marked : Nat
  empty : Nat
  decodeErrors : Nat
  dbErrors : Nat
deriving DecidableEq, Repr

/-- One iteration of the result-collection loop of `optimizeImagesBatch`
(source lines 170–202): empty-data records are marked empty-optimized,
transform errors are only counted and logged, `same` results are marked
without a data change, and rewrites persist new `data`/`mime`; every store
write that fails (modelled by the per-record oracle `dbFail`) only bumps
`dbErrors` and leaves the store untouched.  `transform` is the worker's
`optimizeBytes` call, a parameter so the theorems hold for every transform. -/
def applyOutcome (transform : List Nat → String → Option (List Nat × Bool × String))
    (dbFail : Nat → Bool) (now : Nat)
    (acc : List ImageRec × optStats) (im : ImageRec) : List ImageRec × optStats :=
  let store := acc.1
  let st := acc.2
  if im.data.length = 0 then
    if dbFail im.id then (store, { st with dbErrors := st.dbErrors + 1 })
    else (markImageOptimizedEmpty store im.id,
      { st with empty := st.empty + 1, marked := st.marked + 1 })
  else
    match transform im.data im.mime with
    | none => (store, { st with decodeErrors := st.decodeErrors + 1 })
    | some (data, same, mime) =>
      if same then
        if dbFail im.id then (store, { st with dbErrors := st.dbErrors + 1 })
        else (markImageOptimizedNoChange store im.id now,
          { st with marked := st.marked + 1 })
      else
        if dbFail im.id then (store, { st with dbErrors := st.dbErrors + 1 })
        else (updateImageOptimizedData store im.id data mime now,
          { st with resized := st.resized + 1 })

/-- Go `optimizeImagesBatch(limit)`: query the eligible batch, set
`stats.found`, process every result, return the final store and stats.  The
worker pool delivers one result per selected record and the collection loop
applies them independently; outcomes of distinct records commute (distinct
primary keys), so the fold applies them in selection order. -/
def optimizeImagesBatch (transform : List Nat → String → Option (List Nat × Bool × String))
    (dbFail : Nat → Bool) (now : Nat)
    (store : List ImageRec) (limit : Nat) : List ImageRec × optStats :=
  let imgs := ListImagesToOptimize store limit
  imgs.foldl (applyOutcome transform dbFail now)
    (store, { found := imgs.length, resized := 0, marked := 0, empty := 0,
              decodeErrors := 0, dbErrors := 0 })

/-- Lookup of the record with a given primary key. -/
def findRec (store : List ImageRec) (id : Nat) : Option ImageRec :=
  store.find? fun r => r.id == id

/-- The persisted per-record outcome when its store write succeeds: what the
collection loop writes for this record. -/
def outcomeRec (transform : List Nat → String → Option (List Nat × Bool × String))
    (now : Nat) (im : ImageRec) : ImageRec :=
  if im.data.length = 0 then { im with optimized := true }
  else
    match transform im.data im.mime with
    | none => im
    | some (data, same, mime) =>
      if same then { im with optimized := true, updatedAt := now }
      else { im with data := data, mime := mime, optimized := true, updatedAt := now }

/-! ## Scheduler (`imageOptimizerLoop`) -/

/-- The sleep selection of `imageOptimizerLoop` (durations in seconds):
error → 15 s, no work found → 1 min, partial batch → 10 s, full batch →
run again immediately. -/
def nextSleep (errored : Bool) (found limit : Nat) : Nat :=
  if errored then 15
  else if found = 0 then 60
  else if found < limit then 10
  else 0

/-- Outcome of one `logOptimizeRun` call as the loop observes it. -/
structure BatchOutcome where
  errored : Bool
  found : Nat
deriving DecidableEq, Repr

/-- The batch-size limit passed to the n-th `logOptimizeRun` call: the initial
quick run uses 5, every later run uses the loop variable `limit = 10`. -/
def limitUsed : Nat → Nat
  | 0 => 5
  | _ + 1 => 10

/-- The sleep chosen after the n-th run, given the oracle `f` of run outcomes:
the loop always compares `stats.found` against the loop variable `limit`,
which is `10` from before the first comparison onwards — also for the stats of
the initial limit-5 run. -/
def sleepAfter (f : Nat → BatchOutcome) (n : Nat) : Nat :=
  nextSleep (f n).errored (f n).found 10

/-! ## Scheduler claims -/

/-- C3, counterexample: the claimed delay ordering
`delay(error) < delay(found=limit) == 0` fails on the code — after an errored
batch the loop sleeps 15 s while a full batch (`found = limit = 10`) sleeps
0 s, and `15 < 0` is false. -/
theorem c3_claimed_ordering_false :
    nextSleep true 0 10 = 15 ∧ nextSleep false 10 10 = 0 ∧
    ¬ nextSleep true 0 10 < nextSleep false 10 10 := by
  refine ⟨rfl, by norm_num [nextSleep], ?_⟩
  norm_num [nextSleep]

/-- C3, amended: the scheduler picks the next sleep by the four-tier policy —
errored batch: fixed 15 s backoff; zero records found: 60 s idle delay; some
found but fewer than the limit: 10 s; a full batch: zero delay — and the
delays satisfy `delay(found=limit) == 0 < delay(partial) < delay(error) <
delay(found=0)`. -/
theorem c3_backoff_tiers (found limit : Nat) :
    nextSleep true found limit = 15 ∧
    nextSleep false 0 limit = 60 ∧
    (0 < found → found < limit → nextSleep false found limit = 10) ∧
    (0 < found → limit ≤ found → nextSleep false found limit = 0) ∧
    nextSleep false 10 10 = 0 ∧
    nextSleep false 10 10 < nextSleep false 5 10 ∧
    nextSleep false 5 10 < nextSleep true 5 10 ∧
    nextSleep true 5 10 < nextSleep false 0 10 := by
  refine ⟨rfl, by norm_num [nextSleep], ?_, ?_, by norm_num [nextSleep],
    by norm_num [nextSleep], by norm_num [nextSleep], by norm_num [nextSleep]⟩
  · intro h1 h2
    simp [nextSleep, h1.ne', h2]
  · intro h1 h2
    simp [nextSleep, h1.ne', Nat.not_lt.mpr h2]

/-- Witness for `c3_backoff_tiers` at a partial batch of 5 out of 10. -/
theorem c3_backoff_tiers_witness :
    nextSleep false 5 10 = 10 ∧ nextSleep false 5 10 < nextSleep true 5 10 :=
  ⟨(c3_backoff_tiers 5 10).2.2.1 (by norm_num) (by norm_num),
    (c3_backoff_tiers 5 10).2.2.2.2.2.2.1⟩

/-- C10: the very first batch runs with limit 5 and every later batch with
limit 10, while the partial-versus-full decision always compares `found`
against the loop variable `limit = 10`; hence a first batch that completely
fills its limit of 5 is classified as partial and followed by the 10-second
delay rather than an immediate rerun. -/
theorem c10_first_batch_partial :
    limitUsed 0 = 5 ∧ (∀ n, limitUsed (n + 1) = 10) ∧
    (∀ f : Nat → BatchOutcome, ∀ n,
      sleepAfter f n = nextSleep (f n).errored (f n).found 10) ∧
    (∀ f : Nat → BatchOutcome, (f 0).errored = false → (f 0).found = limitUsed 0 →
      sleepAfter f 0 = 10 ∧ sleepAfter f 0 ≠ 0) := by
  refine ⟨rfl, fun n => rfl, fun f n => rfl, fun f he hf => ?_⟩
  rw [show limitUsed 0 = 5 from rfl] at hf
  constructor <;> simp [sleepAfter, nextSleep, he, hf]

/-- Witness for `c10_first_batch_partial`: a first run that finds exactly its
limit of 5 records is followed by a 10-second sleep. -/
theorem c10_first_batch_partial_witness :
    sleepAfter (fun _ => ⟨false, 5⟩) 0 = 10 ∧ sleepAfter (fun _ => ⟨false, 5⟩) 0 ≠ 0 :=
  c10_first_batch_partial.2.2.2 (fun _ => ⟨false, 5⟩) rfl rfl

/-! ## Decode chain claim -/

/-- C8: the decode step of `optimizeBytes` agrees with the specified fallback
chain (WebP-declared MIME: WebP decoder, then the general decoder, then the
WebP decoder again as a last resort — the third attempt being redundant for a
deterministic decoder; other MIME: general decoder, then WebP decoder), and a
decode error is returned exactly when the whole chain is exhausted, i.e. both
decoders fail. -/
theorem c8_decode_fallback_chain (α : Type) (d : Decoders α) (mime : String)
    (b : List Nat) :
    decodeImage d mime b = decodeChainClaim d mime b ∧
    (decodeImage d mime b = none ↔ d.webpDecode b = none ∧ d.imageDecode b = none) := by
  unfold decodeImage decodeChainClaim
  cases hm : mimeHasWebP mime <;>
    rcases hw : d.webpDecode b with _ | img1 <;>
    rcases hg : d.imageDecode b with _ | img2 <;>
      simp [hm, hw, hg]

/-! ## Gain heuristic claim -/

/-- C2: for a non-empty input `b` (length `L0`) whose decode succeeds and whose
candidate WebP re-encoding has length `L1`, `optimizeBytes` runs the gain
check and returns the new bytes with MIME `"image/webp"` iff
`(L0 - L1) / L0 >= 0.03`, and otherwise the original bytes and MIME with
`same = true`; in particular for `L0 = 100` a candidate of `L1 = 98` is
rejected and one of `L1 = 95` is accepted. -/
theorem c2_gain_heuristic (α : Type) (d : Decoders α) (enc : Img α → Option (List Nat))
    (resample : Img α → Nat → Nat → Img α) (b : List Nat) (mime : String)
    (img0 : Img α) (newData : List Nat)
    (hdec : decodeImage d mime b = some img0)
    (hw : (applyEXIFOrientationModel b img0).w ≠ 0)
    (hh : (applyEXIFOrientationModel b img0).h ≠ 0)
    (henc : enc (encodeTarget resample (applyEXIFOrientationModel b img0)
      imgOptMaxW imgOptMaxH) = some newData)
    (hb : b ≠ []) :
    (optimizeBytesModel d enc resample b mime imgOptMaxW imgOptMaxH =
      some (gainDecide b mime newData)) ∧
    (gainDecide b mime newData = (newData, false, "image/webp") ↔
      imgOptMinGainRatio ≤ ((b.length : ℚ) - (newData.length : ℚ)) / (b.length : ℚ)) ∧
    (((b.length : ℚ) - (newData.length : ℚ)) / (b.length : ℚ) < imgOptMinGainRatio →
      gainDecide b mime newData = (b, true, mime)) ∧
    gainDecide (List.replicate 100 0) mime (List.replicate 98 0) =
      (List.replicate 100 0, true, mime) ∧
    gainDecide (List.replicate 100 0) mime (List.replicate 95 0) =
      (List.replicate 95 0, false, "image/webp") := by
  have hL0 : 0 < b.length := List.length_pos.mpr hb
  refine ⟨?_, ?_, ?_, ?_, ?_⟩
  · simp [optimizeBytesModel, hdec, hw, hh, henc]
  · unfold gainDecide
    by_cases hlt : ((b.length : ℚ) - (newData.length : ℚ)) / (b.length : ℚ) < imgOptMinGainRatio
    · rw [if_pos ⟨hL0, hlt⟩]
      simp [not_le.mpr hlt]
    · rw [if_neg (by intro hc; exact hlt hc.2)]
      simp [not_lt.mp hlt]
  · intro hlt
    unfold gainDecide
    rw [if_pos ⟨hL0, hlt⟩]
  · norm_num [gainDecide, imgOptMinGainRatio]
  · norm_num [gainDecide, imgOptMinGainRatio]

/-- Decoders for the `c2_gain_heuristic` witness: both decoders produce a
fixed 1×1 image. -/
def c2Dec : Decoders Unit :=
  ⟨fun _ => some ⟨1, 1, fun _ _ => ()⟩, fun _ => some ⟨1, 1, fun _ _ => ()⟩⟩

/-- Encoder for the `c2_gain_heuristic` witness: a 95-byte output. -/
def c2Enc : Img Unit → Option (List Nat) := fun _ => some (List.replicate 95 0)

/-- Witness for `c2_gain_heuristic`: a 100-byte non-JPEG input re-encoded to
95 bytes (5% gain) is accepted and rewritten to `"image/webp"`. -/
theorem c2_gain_heuristic_witness :
    optimizeBytesModel c2Dec c2Enc (fun i _ _ => i) (List.replicate 100 1) "image/png"
      imgOptMaxW imgOptMaxH =
      some (gainDecide (List.replicate 100 1) "image/png" (List.replicate 95 0)) ∧
    gainDecide (List.replicate 100 1) "image/png" (List.replicate 95 0) =
      (List.replicate 95 0, false, "image/webp") := by
  have h := c2_gain_heuristic Unit c2Dec c2Enc (fun i _ _ => i) (List.replicate 100 1)
    "image/png" ⟨1, 1, fun _ _ => ()⟩ (List.replicate 95 0) rfl
    (by norm_num [applyEXIFOrientationModel, looksLikeJPEG])
    (by norm_num [applyEXIFOrientationModel, looksLikeJPEG])
    (by rfl) (by simp)
  refine ⟨h.1, ?_⟩
  refine (h.2.1).mpr ?_
  norm_num [imgOptMinGainRatio]

/-! ## Target-size claims -/

/-- Helper bound: when the scale is at most `300 / w`, the rounded-and-clamped
target dimension stays within 300. -/
lemma roundDim_le_300 (w : Nat) (s : ℚ) (hw : 0 < w) (hs : s ≤ (300 : ℚ) / (w : ℚ)) :
    roundDim w s ≤ 300 := by
  have hwQ : (0 : ℚ) < (w : ℚ) := by exact_mod_cast hw
  have h1 : (w : ℚ) * s ≤ 300 := by
    have h2 := mul_le_mul_of_nonneg_left hs (le_of_lt hwQ)
    rwa [mul_comm (w : ℚ) ((300 : ℚ) / (w : ℚ)), div_mul_cancel₀ _ (ne_of_gt hwQ)] at h2
  have hfloor : (⌊(300 : ℚ) + 1 / 2⌋ : ℤ) = 300 := by
    rw [Int.floor_eq_iff]
    norm_num
  have h3 : round ((w : ℚ) * s) ≤ (300 : ℤ) := by
    rw [round_eq, ← hfloor]
    exact Int.floor_le_floor (by linarith)
  exact Int.toNat_le.mpr (max_le (by norm_num) h3)

/-- Helper bound: the clamp keeps every target dimension at least 1. -/
lemma one_le_roundDim (w : Nat) (s : ℚ) : 1 ≤ roundDim w s :=
  Int.toNat_le_toNat (le_max_left 1 (round ((w : ℚ) * s)))

/-- C7: with bounds `(300, 300)` and positive source dimensions,
`scale = min(maxW/w, maxH/h)` is at least 1 exactly when `w ≤ 300` and
`h ≤ 300`, in which case the pixel dimensions stay `(w, h)`; otherwise the
output dimensions are `max(1, round(w·scale))` and `max(1, round(h·scale))`,
which lie between 1 and 300. -/
theorem c7_no_upscale (w h : Nat) (hw : 0 < w) (hh : 0 < h) :
    (1 ≤ computeScale w h imgOptMaxW imgOptMaxH ↔ w ≤ 300 ∧ h ≤ 300) ∧
    (w ≤ 300 ∧ h ≤ 300 → targetDims w h imgOptMaxW imgOptMaxH = (w, h)) ∧
    (¬ (w ≤ 300 ∧ h ≤ 300) →
      targetDims w h imgOptMaxW imgOptMaxH =
        (roundDim w (computeScale w h imgOptMaxW imgOptMaxH),
          roundDim h (computeScale w h imgOptMaxW imgOptMaxH)) ∧
      (targetDims w h imgOptMaxW imgOptMaxH).1 ≤ 300 ∧
      (targetDims w h imgOptMaxW imgOptMaxH).2 ≤ 300 ∧
      1 ≤ (targetDims w h imgOptMaxW imgOptMaxH).1 ∧
      1 ≤ (targetDims w h imgOptMaxW imgOptMaxH).2) := by
  have hwQ : (0 : ℚ) < (w : ℚ) := by exact_mod_cast hw
  have hhQ : (0 : ℚ) < (h : ℚ) := by exact_mod_cast hh
  have hmaxW : ((imgOptMaxW : ℕ) : ℚ) = (300 : ℚ) := by norm_num [imgOptMaxW]
  have hmaxH : ((imgOptMaxH : ℕ) : ℚ) = (300 : ℚ) := by norm_num [imgOptMaxH]
  have hiff : 1 ≤ computeScale w h imgOptMaxW imgOptMaxH ↔ w ≤ 300 ∧ h ≤ 300 := by
    unfold computeScale
    rw [hmaxW, hmaxH, le_min_iff, one_le_div hwQ, one_le_div hhQ]
    constructor
    · rintro ⟨h1, h2⟩
      exact ⟨by exact_mod_cast h1, by exact_mod_cast h2⟩
    · rintro ⟨h1, h2⟩
      exact ⟨by exact_mod_cast h1, by exact_mod_cast h2⟩
  refine ⟨hiff, ?_, ?_⟩
  · intro hle
    unfold targetDims
    rw [if_pos (hiff.mpr hle)]
  · intro hnot
    have hs1 : ¬ 1 ≤ computeScale w h imgOptMaxW imgOptMaxH := fun hc => hnot (hiff.mp hc)
    have hsw : computeScale w h imgOptMaxW imgOptMaxH ≤ (300 : ℚ) / (w : ℚ) := by
      unfold computeScale
      rw [hmaxW, hmaxH]
      exact min_le_left _ _
    have hsh : computeScale w h imgOptMaxW imgOptMaxH ≤ (300 : ℚ) / (h : ℚ) := by
      unfold computeScale
      rw [hmaxW, hmaxH]
      exact min_le_right _ _
    have heq : targetDims w h imgOptMaxW imgOptMaxH =
        (roundDim w (computeScale w h imgOptMaxW imgOptMaxH),
          roundDim h (computeScale w h imgOptMaxW imgOptMaxH)) := by
      unfold targetDims
      rw [if_neg hs1]
    refine ⟨heq, ?_, ?_, ?_, ?_⟩ <;> rw [heq]
    · exact roundDim_le_300 w _ hw hsw
    · exact roundDim_le_300 h _ hh hsh
    · exact one_le_roundDim w _
    · exact one_le_roundDim h _

/-- Witness for `c7_no_upscale`: a 100×100 image is within bounds, so its
dimensions are unchanged. -/
theorem c7_no_upscale_witness :
    targetDims 100 100 imgOptMaxW imgOptMaxH = (100, 100) :=
  (c7_no_upscale 100 100 (by norm_num) (by norm_num)).2.1 ⟨by norm_num, by norm_num⟩

/-! ## Orientation-geometry claim -/

/-- C6: for every source image and every in-range pixel `(x, y)`,
`transformByOrientation` realizes, for each of the 7 non-identity orientation
codes, exactly the documented remap into the fresh canvas — 2: horizontal
flip, 3: 180° rotation, 4: vertical flip, 5: transpose, 6: 90° clockwise,
7: transverse, 8: 90° counter-clockwise — with output dimensions swapped to
`h×w` for codes 5–8 and unchanged for codes 2–4 (so for orientation 3 the
source pixel `(0,0)` lands at destination `(w-1, h-1)`). -/
theorem c6_orientation_geometry (α : Type) (img : Img α) (x y : Nat)
    (hx : x < img.w) (hy : y < img.h) :
    ((transformByOrientation img 2).w = img.w ∧ (transformByOrientation img 2).h = img.h ∧
      (transformByOrientation img 2).pix (img.w - 1 - x) y = img.pix x y) ∧
    ((transformByOrientation img 3).w = img.w ∧ (transformByOrientation img 3).h = img.h ∧
      (transformByOrientation img 3).pix (img.w - 1 - x) (img.h - 1 - y) = img.pix x y) ∧
    ((transformByOrientation img 4).w = img.w ∧ (transformByOrientation img 4).h = img.h ∧
      (transformByOrientation img 4).pix x (img.h - 1 - y) = img.pix x y) ∧
    ((transformByOrientation img 5).w = img.h ∧ (transformByOrientation img 5).h = img.w ∧
      (transformByOrientation img 5).pix y x = img.pix x y) ∧
    ((transformByOrientation img 6).w = img.h ∧ (transformByOrientation img 6).h = img.w ∧
      (transformByOrientation img 6).pix (img.h - 1 - y) x = img.pix x y) ∧
    ((transformByOrientation img 7).w = img.h ∧ (transformByOrientation img 7).h = img.w ∧
      (transformByOrientation img 7).pix (img.h - 1 - y) (img.w - 1 - x) = img.pix x y) ∧
    ((transformByOrientation img 8).w = img.h ∧ (transformByOrientation img 8).h = img.w ∧
      (transformByOrientation img 8).pix y (img.w - 1 - x) = img.pix x y) := by
  have hxx : img.w - 1 - (img.w - 1 - x) = x := by omega
  have hyy : img.h - 1 - (img.h - 1 - y) = y := by omega
  refine ⟨⟨rfl, rfl, ?_⟩, ⟨rfl, rfl, ?_⟩, ⟨rfl, rfl, ?_⟩, ⟨rfl, rfl, rfl⟩,
    ⟨rfl, rfl, ?_⟩, ⟨rfl, rfl, ?_⟩, ⟨rfl, rfl, ?_⟩⟩
  · show img.pix (img.w - 1 - (img.w - 1 - x)) y = img.pix x y
    rw [hxx]
  · show img.pix (img.w - 1 - (img.w - 1 - x)) (img.h - 1 - (img.h - 1 - y)) = img.pix x y
    rw [hxx, hyy]
  · show img.pix x (img.h - 1 - (img.h - 1 - y)) = img.pix x y
    rw [hyy]
  · show img.pix x (img.h - 1 - (img.h - 1 - y)) = img.pix x y
    rw [hyy]
  · show img.pix (img.w - 1 - (img.w - 1 - x)) (img.h - 1 - (img.h - 1 - y)) = img.pix x y
    rw [hxx, hyy]
  · show img.pix (img.w - 1 - (img.w - 1 - x)) y = img.pix x y
    rw [hxx]

/-- The 2×3 test image of the specification, with each pixel labelled by its
coordinates. -/
def c6Img : Img (Nat × Nat) := ⟨2, 3, fun x y => (x, y)⟩

/-- Witness for `c6_orientation_geometry` on the 2×3 test image: orientation 3
sends source pixel `(0,0)` to `(w-1, h-1) = (1,2)`, and orientation 6 swaps
the dimensions. -/
theorem c6_orientation_geometry_witness :
    (transformByOrientation c6Img 3).pix 1 2 = c6Img.pix 0 0 ∧
    (transformByOrientation c6Img 6).w = 3 ∧ (transformByOrientation c6Img 6).h = 2 := by
  have h := c6_orientation_geometry (Nat × Nat) c6Img 0 0 (by decide) (by decide)
  exact ⟨h.2.1.2.2, h.2.2.2.2.1.1, h.2.2.2.2.1.2.1⟩

/-! ## Shape lemmas for the EXIF reader -/

/-- Every IFD scan result is either the default `(1, false)` or a valid
orientation in `[1, 8]` with success. -/
lemma ifdScan_shape (le : Bool) (t : List Nat) :
    ∀ n pos, ifdScan le t n pos = (1, false) ∨
      ∃ v, ifdScan le t n pos = (v, true) ∧ 1 ≤ v ∧ v ≤ 8 := by
  intro n
  induction n with
  | zero => intro pos; left; rfl
  | succ n ih =>
    intro pos
    by_cases h1 : t.length < pos + 12
    · left; simp [ifdScan, h1]
    by_cases h2 : tu16 le t pos = 0x0112 ∧ tu16 le t (pos + 2) = 3 ∧
        1 ≤ tu32 le t (pos + 4) ∧ 1 ≤ tu16 le t (pos + 8) ∧ tu16 le t (pos + 8) ≤ 8
    · right
      refine ⟨tu16 le t (pos + 8), ?_, h2.2.2.2.1, h2.2.2.2.2⟩
      simp [ifdScan, h1, h2]
    · have hstep : ifdScan le t (n + 1) pos = ifdScan le t n (pos + 12) := by
        simp [ifdScan, h1, h2]
      rw [hstep]
      exact ih (pos + 12)

/-- Every result of the TIFF body parse is the default or a valid orientation. -/
lemma parseTIFFBody_shape (le : Bool) (t : List Nat) :
    parseTIFFOrientation.parseTIFFBody le t = (1, false) ∨
      ∃ v, parseTIFFOrientation.parseTIFFBody le t = (v, true) ∧ 1 ≤ v ∧ v ≤ 8 := by
  by_cases hm : tu16 le t 2 ≠ 42
  · left; simp [parseTIFFOrientation.parseTIFFBody, hm]
  by_cases ho : tu32 le t 4 = 0 ∨ t.length < tu32 le t 4 + 2
  · left; simp [parseTIFFOrientation.parseTIFFBody, hm, ho]
  · have hstep : parseTIFFOrientation.parseTIFFBody le t =
        ifdScan le t (tu16 le t (tu32 le t 4)) (tu32 le t 4 + 2) := by
      simp [parseTIFFOrientation.parseTIFFBody, hm, ho]
    rw [hstep]
    exact ifdScan_shape le t _ _

/-- Every result of `parseTIFFOrientation` is the default `(1, false)` or a
valid orientation in `[1, 8]` with success. -/
lemma parseTIFFOrientation_shape (t : List Nat) :
    parseTIFFOrientation t = (1, false) ∨
      ∃ v, parseTIFFOrientation t = (v, true) ∧ 1 ≤ v ∧ v ≤ 8 := by
  unfold parseTIFFOrientation
  by_cases h8 : t.length < 8
  · left; rw [if_pos h8]
  rw [if_neg h8]
  by_cases hii : t.getD 0 0 = 73 ∧ t.getD 1 0 = 73
  · rw [if_pos hii]
    exact parseTIFFBody_shape true t
  rw [if_neg hii]
  by_cases hmm77 : t.getD 0 0 = 77 ∧ t.getD 1 0 = 77
  · rw [if_pos hmm77]
    exact parseTIFFBody_shape false t
  · left; rw [if_neg hmm77]

/-- Every result of the JPEG marker walk is the default `(1, false)` or a
valid orientation in `[1, 8]` with success. -/
lemma jpegScan_shape (b : List Nat) :
    ∀ i, jpegScan b i = (1, false) ∨
      ∃ v, jpegScan b i = (v, true) ∧ 1 ≤ v ∧ v ≤ 8 := by
  have H : ∀ n i, b.length - i ≤ n →
      (jpegScan b i = (1, false) ∨ ∃ v, jpegScan b i = (v, true) ∧ 1 ≤ v ∧ v ≤ 8) := by
    intro n
    induction n with
    | zero =>
      intro i hi
      left
      rw [jpegScan, dif_neg (by omega)]
    | succ n ih =>
      intro i hi
      by_cases h4 : i + 4 ≤ b.length
      case neg => left; rw [jpegScan, dif_neg h4]
      rw [jpegScan, dif_pos h4]
      by_cases hff : b.getD i 0 = 0xFF
      case neg => left; rw [if_neg hff]
      rw [if_pos hff, if_neg (show ¬ b.length ≤ i + 1 by omega)]
      by_cases hstop : b.getD (i + 1) 0 = 0xDA ∨ b.getD (i + 1) 0 = 0xD9
      case pos => left; rw [if_pos hstop]
      rw [if_neg hstop, if_neg (show ¬ b.length < i + 4 by omega)]
      by_cases hseg : beU16 b (i + 2) < 2 ∨ b.length < i + 2 + beU16 b (i + 2)
      case pos => left; rw [dif_pos hseg]
      rw [dif_neg hseg]
      have hnext : b.length - (i + 2 + beU16 b (i + 2)) ≤ n := by omega
      by_cases hE1 : b.getD (i + 1) 0 = 0xE1 ∧ 10 ≤ beU16 b (i + 2)
      case neg =>
        rw [if_neg hE1]
        exact ih _ hnext
      rw [if_pos hE1]
      by_cases hex : exifHeaderAt b i = true
      case neg =>
        rw [if_neg hex]
        exact ih _ hnext
      rw [if_pos hex]
      rcases hp : parseTIFFOrientation (tiffAt b i) with ⟨v, bv⟩
      cases bv
      · simpa [hp] using ih _ hnext
      · rcases parseTIFFOrientation_shape (tiffAt b i) with hd | ⟨v', hv', h1, h8⟩
        · rw [hp] at hd
          simp at hd
        · rw [hp] at hv'
          obtain ⟨rfl, -⟩ : v = v' ∧ True := by
            simpa [Prod.ext_iff] using hv'
          right
          exact ⟨v, by simp [hp], h1, h8⟩
  intro i
  exact H b.length i (by omega)

/-! ## Tolerance claim for the EXIF reader -/

/-- C4: the EXIF orientation reader is total and maximally tolerant — it is a
pure total function of the byte buffer (every index access in the embedding is
the guarded `getD`, so no panic path exists and no error is ever returned),
whenever it does not report success it returns the default orientation
`(1, false)` (in particular on every non-JPEG buffer and every TIFF block
shorter than 8 bytes), and whenever it reports success the orientation is in
`[1, 8]`. -/
theorem c4_reader_tolerant (b : List Nat) :
    ((parseEXIFOrientationJPEG b).2 = false → parseEXIFOrientationJPEG b = (1, false)) ∧
    ((parseEXIFOrientationJPEG b).2 = true →
      1 ≤ (parseEXIFOrientationJPEG b).1 ∧ (parseEXIFOrientationJPEG b).1 ≤ 8) ∧
    (looksLikeJPEG b = false → parseEXIFOrientationJPEG b = (1, false)) ∧
    ((parseTIFFOrientation b).2 = false → parseTIFFOrientation b = (1, false)) ∧
    ((parseTIFFOrientation b).2 = true →
      1 ≤ (parseTIFFOrientation b).1 ∧ (parseTIFFOrientation b).1 ≤ 8) ∧
    (b.length < 8 → parseTIFFOrientation b = (1, false)) := by
  have hjshape : parseEXIFOrientationJPEG b = (1, false) ∨
      ∃ v, parseEXIFOrientationJPEG b = (v, true) ∧ 1 ≤ v ∧ v ≤ 8 := by
    unfold parseEXIFOrientationJPEG
    by_cases hlj : looksLikeJPEG b = true
    · rw [if_pos hlj]
      exact jpegScan_shape b 2
    · left
      rw [if_neg hlj]
  have htshape := parseTIFFOrientation_shape b
  refine ⟨?_, ?_, ?_, ?_, ?_, ?_⟩
  · intro hf
    rcases hjshape with hd | ⟨v, hv, -, -⟩
    · exact hd
    · rw [hv] at hf
      simp at hf
  · intro ht
    rcases hjshape with hd | ⟨v, hv, h1, h8⟩
    · rw [hd] at ht
      simp at ht
    · rw [hv]
      exact ⟨h1, h8⟩
  · intro hlj
    simp [parseEXIFOrientationJPEG, hlj]
  · intro hf
    rcases htshape with hd | ⟨v, hv, -, -⟩
    · exact hd
    · rw [hv] at hf
      simp at hf
  · intro ht
    rcases htshape with hd | ⟨v, hv, h1, h8⟩
    · rw [hd] at ht
      simp at ht
    · rw [hv]
      exact ⟨h1, h8⟩
  · intro h8
    simp [parseTIFFOrientation, h8]

/-- Witness for `c4_reader_tolerant`: a short garbage buffer yields the
default orientation from both readers. -/
theorem c4_reader_tolerant_witness :
    parseEXIFOrientationJPEG [0, 1, 2] = (1, false) ∧
    parseTIFFOrientation [0, 1, 2] = (1, false) :=
  ⟨(c4_reader_tolerant [0, 1, 2]).2.2.1 (by decide),
    (c4_reader_tolerant [0, 1, 2]).2.2.2.2.2 (by decide)⟩

/-! ## Well-formedness for the EXIF extraction claim -/

/-- The hit condition of the IFD entry scan at `pos`: tag `0x0112`
(Orientation), type 3 (SHORT), count at least 1, and an inline value in
`[1, 8]`. -/
abbrev entryHit (le : Bool) (t : List Nat) (pos : Nat) : Prop :=
  tu16 le t pos = 0x0112 ∧ tu16 le t (pos + 2) = 3 ∧ 1 ≤ tu32 le t (pos + 4) ∧
    1 ≤ tu16 le t (pos + 8) ∧ tu16 le t (pos + 8) ≤ 8

/-- A well-formed TIFF block whose first IFD carries orientation `v`: correct
byte-order marker, magic 42, in-range first-IFD offset, and a `k`-th entry
that is the first Orientation hit, fits in the buffer, and stores `v`. -/
def TiffWF (t : List Nat) (v : Nat) : Prop :=
  8 ≤ t.length ∧
  ∃ le : Bool,
    (if le then t.getD 0 0 = 73 ∧ t.getD 1 0 = 73
      else t.getD 0 0 = 77 ∧ t.getD 1 0 = 77) ∧
    tu16 le t 2 = 42 ∧
    1 ≤ tu32 le t 4 ∧ tu32 le t 4 + 2 ≤ t.length ∧
    ∃ k, k < tu16 le t (tu32 le t 4) ∧
      tu32 le t 4 + 2 + 12 * k + 12 ≤ t.length ∧
      entryHit le t (tu32 le t 4 + 2 + 12 * k) ∧
      tu16 le t (tu32 le t 4 + 2 + 12 * k + 8) = v ∧
      ∀ j, j < k → ¬ entryHit le t (tu32 le t 4 + 2 + 12 * j)

/-- A walkable segment header at offset `i`: sync byte `0xFF`, a marker that
is neither SOS nor EOI, and a segment length that is at least 2 and fits in
the buffer. -/
def walkOk (b : List Nat) (i : Nat) : Prop :=
  i + 4 ≤ b.length ∧ b.getD i 0 = 0xFF ∧
    b.getD (i + 1) 0 ≠ 0xDA ∧ b.getD (i + 1) 0 ≠ 0xD9 ∧
    2 ≤ beU16 b (i + 2) ∧ i + 2 + beU16 b (i + 2) ≤ b.length

/-- The segment at `i` is an APP1 Exif segment from which the TIFF parse
succeeds (the walk returns from such a segment). -/
def app1Hit (b : List Nat) (i : Nat) : Prop :=
  b.getD (i + 1) 0 = 0xE1 ∧ 10 ≤ beU16 b (i + 2) ∧ exifHeaderAt b i = true ∧
    (parseTIFFOrientation (tiffAt b i)).2 = true

/-- The marker walk starting at offset `i` reaches a well-formed APP1 Exif
segment carrying orientation `v`, passing only over walkable non-Exif
segments (so in particular the well-formed segment precedes any SOS/EOI
marker). -/
inductive ExifAt (b : List Nat) : Nat → Nat → Prop where
  | found (i v : Nat) (hw : walkOk b i) (hm : b.getD (i + 1) 0 = 0xE1)
      (hlen : 10 ≤ beU16 b (i + 2)) (hex : exifHeaderAt b i = true)
      (ht : TiffWF (tiffAt b i) v) : ExifAt b i v
  | step (i v : Nat) (hw : walkOk b i) (hnot : ¬ app1Hit b i)
      (hnext : ExifAt b (i + 2 + beU16 b (i + 2)) v) : ExifAt b i v

/-- The IFD scan returns the value of the first hit entry when that entry
fits, is preceded only by misses, and its index is below the entry count. -/
lemma ifdScan_finds (le : Bool) (t : List Nat) :
    ∀ k n pos, k < n → pos + 12 * k + 12 ≤ t.length →
      entryHit le t (pos + 12 * k) →
      (∀ j, j < k → ¬ entryHit le t (pos + 12 * j)) →
      ifdScan le t n pos = (tu16 le t (pos + 12 * k + 8), true) := by
  intro k
  induction k with
  | zero =>
    intro n pos hkn hfit hhit _hmiss
    obtain ⟨m, rfl⟩ : ∃ m, n = m + 1 := ⟨n - 1, by omega⟩
    have hhit0 : entryHit le t pos := by simpa using hhit
    simp only [ifdScan]
    rw [if_neg (by omega), if_pos hhit0]
  | succ k ih =>
    intro n pos hkn hfit hhit hmiss
    obtain ⟨m, rfl⟩ : ∃ m, n = m + 1 := ⟨n - 1, by omega⟩
    have hmiss0 : ¬ entryHit le t pos := by
      have := hmiss 0 (by omega)
      simpa using this
    have hstep := ih m (pos + 12) (by omega)
      (by rw [show pos + 12 + 12 * k + 12 = pos + 12 * (k + 1) + 12 from by ring]; exact hfit)
      (by rw [show pos + 12 + 12 * k = pos + 12 * (k + 1) from by ring]; exact hhit)
      (by
        intro j hj
        rw [show pos + 12 + 12 * j = pos + 12 * (j + 1) from by ring]
        exact hmiss (j + 1) (by omega))
    simp only [ifdScan]
    rw [if_neg (by omega), if_neg hmiss0, hstep,
      show pos + 12 + 12 * k + 8 = pos + 12 * (k + 1) + 8 from by ring]

/-- The TIFF parser returns `(v, true)` on every well-formed TIFF block
carrying orientation `v`. -/
lemma parseTIFFOrientation_of_wf (t : List Nat) (v : Nat) (h : TiffWF t v) :
    parseTIFFOrientation t = (v, true) := by
  obtain ⟨hlen, le, hsig, hmag, hoff1, hoff2, k, hk, hfit, hhit, hval, hmiss⟩ := h
  have hbody : parseTIFFOrientation.parseTIFFBody le t = (v, true) := by
    unfold parseTIFFOrientation.parseTIFFBody
    rw [if_neg (by simp [hmag]), if_neg (by omega),
      ifdScan_finds le t k _ _ hk hfit hhit hmiss, hval]
  unfold parseTIFFOrientation
  rw [if_neg (by omega)]
  cases le with
  | true =>
    have hsig' : t.getD 0 0 = 73 ∧ t.getD 1 0 = 73 := by simpa using hsig
    rw [if_pos hsig']
    exact hbody
  | false =>
    have hsig' : t.getD 0 0 = 77 ∧ t.getD 1 0 = 77 := by simpa using hsig
    rw [if_neg (by
        rintro ⟨h1, -⟩
        rw [hsig'.1] at h1
        exact absurd h1 (by norm_num)),
      if_pos hsig']
    exact hbody

/-- The marker walk returns `(v, true)` whenever it reaches a well-formed
APP1 Exif segment carrying orientation `v`. -/
lemma jpegScan_of_exifAt (b : List Nat) (i v : Nat) (h : ExifAt b i v) :
    jpegScan b i = (v, true) := by
  induction h with
  | found i v hw hm hlen hex ht =>
    obtain ⟨h4, hff, hda, hd9, hseg2, hsegfit⟩ := hw
    rw [jpegScan, dif_pos h4, if_pos hff, if_neg (by omega),
      if_neg (by
        rintro (hc | hc)
        · exact hda hc
        · exact hd9 hc),
      if_neg (by omega), dif_neg (by omega),
      if_pos ⟨hm, hlen⟩, if_pos hex]
    rw [parseTIFFOrientation_of_wf (tiffAt b i) v ht]
  | step i v hw hnot hnext ih =>
    obtain ⟨h4, hff, hda, hd9, hseg2, hsegfit⟩ := hw
    rw [jpegScan, dif_pos h4, if_pos hff, if_neg (by omega),
      if_neg (by
        rintro (hc | hc)
        · exact hda hc
        · exact hd9 hc),
      if_neg (by omega), dif_neg (by omega)]
    by_cases hE1 : b.getD (i + 1) 0 = 0xE1 ∧ 10 ≤ beU16 b (i + 2)
    · rw [if_pos hE1]
      by_cases hex : exifHeaderAt b i = true
      · rw [if_pos hex]
        rcases hp : parseTIFFOrientation (tiffAt b i) with ⟨v', bv⟩
        cases bv
        · simp only [hp]
          exact ih
        · exact absurd ⟨hE1.1, hE1.2, hex, by rw [hp]⟩ hnot
      · rw [if_neg hex]
        exact ih
    · rw [if_neg hE1]
      exact ih

/-- C5: for every buffer that starts with the JPEG signature and, along the
marker walk from offset 2 (hence before any SOS/EOI marker), contains a
well-formed APP1 Exif segment whose TIFF block has a valid byte-order marker,
magic 42, and a first-IFD Orientation entry (tag `0x0112`, type 3, count ≥ 1)
with value `v` in `[1, 8]` read with the declared endianness,
`parseEXIFOrientationJPEG` returns `(v, true)`. -/
theorem c5_wellformed_extraction (b : List Nat) (v : Nat)
    (hj : looksLikeJPEG b = true) (h : ExifAt b 2 v) :
    parseEXIFOrientationJPEG b = (v, true) := by
  unfold parseEXIFOrientationJPEG
  rw [if_pos hj]
  exact jpegScan_of_exifAt b 2 v h

/-- A minimal well-formed JPEG with a little-endian Exif APP1 segment whose
Orientation entry stores 6: SOI, APP1 (length 30), `"Exif\x00\x00"`, TIFF
header `"II"` + 42 + IFD offset 8, entry count 1, and a single
`(0x0112, SHORT, 1, 6)` entry. -/
def c5Bytes : List Nat :=
  [0xFF, 0xD8, 0xFF, 0xE1, 0x00, 0x1E,
    0x45, 0x78, 0x69, 0x66, 0x00, 0x00,
    0x49, 0x49, 0x2A, 0x00, 0x08, 0x00, 0x00, 0x00,
    0x01, 0x00,
    0x12, 0x01, 0x03, 0x00, 0x01, 0x00, 0x00, 0x00, 0x06, 0x00, 0x00, 0x00]

/-- Witness for `c5_wellformed_extraction`: the reader extracts orientation 6
from the minimal well-formed JPEG. -/
theorem c5_wellformed_extraction_witness :
    parseEXIFOrientationJPEG c5Bytes = (6, true) := by
  apply c5_wellformed_extraction c5Bytes 6 (by decide)
  apply ExifAt.found
  · exact ⟨by decide, by decide, by decide, by decide, by decide, by decide⟩
  · decide
  · decide
  · decide
  · exact ⟨by decide, true, by decide, by decide, by decide, by decide,
      0, by decide, by decide, by decide, by decide,
      fun j hj => absurd hj (Nat.not_lt_zero j)⟩

/-! ## Store lemmas for the batch processor -/

/-- A keyed update (`UPDATE ... WHERE id = ?`) with an id-preserving field
change does not affect the lookup of any other id. -/
lemma findRec_map_update (store : List ImageRec) (id id' : Nat) (f : ImageRec → ImageRec)
    (hf : ∀ r, (f r).id = r.id) (hne : id ≠ id') :
    findRec (store.map fun r => if r.id = id' then f r else r) id = findRec store id := by
  induction store with
  | nil => rfl
  | cons a tl ih =>
    by_cases ha : a.id = id
    · have hau : (if a.id = id' then f a else a) = a := if_neg (by rw [ha]; exact hne)
      unfold findRec
      rw [List.map_cons]
      rw [List.find?_cons_of_pos _ (by rw [hau]; simp [ha]),
        List.find?_cons_of_pos _ (by simp [ha])]
      rw [hau]
    · have hgid : (if a.id = id' then f a else a).id = a.id := by
        by_cases h' : a.id = id'
        · rw [if_pos h', hf]
        · rw [if_neg h']
      unfold findRec
      rw [List.map_cons]
      rw [List.find?_cons_of_neg _ (by simp [hgid, ha]), List.find?_cons_of_neg _ (by simp [ha])]
      exact ih

/-- A keyed update with an id-preserving field change rewrites the looked-up
record pointwise. -/
lemma findRec_map_update_self (store : List ImageRec) (id : Nat) (f : ImageRec → ImageRec)
    (hf : ∀ r, (f r).id = r.id) (r : ImageRec) (h : findRec store id = some r) :
    findRec (store.map fun r' => if r'.id = id then f r' else r') id = some (f r) := by
  induction store with
  | nil => simp [findRec] at h
  | cons a tl ih =>
    by_cases ha : a.id = id
    · have hr : a = r := by
        have : findRec (a :: tl) id = some a := by
          unfold findRec
          rw [List.find?_cons_of_pos _ (by simp [ha])]
        rw [this] at h
        exact Option.some_injective _ h

      subst hr
      unfold findRec
      rw [List.map_cons]
      have hg : (if a.id = id then f a else a) = f a := if_pos ha
      rw [List.find?_cons_of_pos _ (by simp [hg, hf, ha])]
      rw [hg]
    · have htl : findRec tl id = some r := by
        unfold findRec at h ⊢
        rwa [List.find?_cons_of_neg _ (by simp [ha])] at h
      have hgid : (if a.id = id then f a else a).id = a.id := by
        rw [if_neg ha]
      unfold findRec
      rw [List.map_cons]
      rw [List.find?_cons_of_neg _ (by simp [hgid, ha])]
      exact ih htl

/-- One collection-loop step leaves the record at any other id untouched. -/
lemma applyOutcome_preserves_other
    (transform : List Nat → String → Option (List Nat × Bool × String))
    (dbFail : Nat → Bool) (now : Nat) (acc : List ImageRec × optStats)
    (im : ImageRec) (id : Nat) (hne : id ≠ im.id) :
    findRec (applyOutcome transform dbFail now acc im).1 id = findRec acc.1 id := by
  unfold applyOutcome
  dsimp only
  by_cases h0 : im.data.length = 0
  · rw [if_pos h0]
    by_cases hdb : dbFail im.id = true
    · rw [if_pos hdb]
    · rw [if_neg hdb]
      exact findRec_map_update acc.1 id im.id _ (fun r => rfl) hne
  · rw [if_neg h0]
    rcases ht : transform im.data im.mime with _ | ⟨data, same, mime⟩
    · rfl
    · cases same
      · dsimp only
        rw [if_neg (by decide)]
        by_cases hdb : dbFail im.id = true
        · rw [if_pos hdb]
        · rw [if_neg hdb]
          exact findRec_map_update acc.1 id im.id _ (fun r => rfl) hne
      · dsimp only
        rw [if_pos rfl]
        by_cases hdb : dbFail im.id = true
        · rw [if_pos hdb]
        · rw [if_neg hdb]
          exact findRec_map_update acc.1 id im.id _ (fun r => rfl) hne

/-- Folding the collection loop over records with other ids preserves the
lookup of `id`. -/
lemma foldl_applyOutcome_preserve
    (transform : List Nat → String → Option (List Nat × Bool × String))
    (dbFail : Nat → Bool) (now : Nat) (id : Nat) (r : ImageRec) :
    ∀ (ims : List ImageRec), (∀ im ∈ ims, im.id ≠ id) →
      ∀ (acc : List ImageRec × optStats), findRec acc.1 id = some r →
      findRec ((ims.foldl (applyOutcome transform dbFail now) acc).1) id = some r := by
  intro ims
  induction ims with
  | nil => intro _ acc h; exact h
  | cons im tl ih =>
    intro hne acc h
    rw [List.foldl_cons]
    refine ih (fun im' him' => hne im' (List.mem_cons_of_mem _ him')) _ ?_
    rw [applyOutcome_preserves_other transform dbFail now acc im id
      (Ne.symm (hne im (List.mem_cons_self _ _)))]
    exact h

/-- The persisted outcome of the step that processes `im` itself, when its
store write succeeds. -/
lemma applyOutcome_persists
    (transform : List Nat → String → Option (List Nat × Bool × String))
    (dbFail : Nat → Bool) (now : Nat) (acc : List ImageRec × optStats) (im : ImageRec)
    (hfound : findRec acc.1 im.id = some im) (hdb : dbFail im.id = false) :
    findRec (applyOutcome transform dbFail now acc im).1 im.id =
      some (outcomeRec transform now im) := by
  unfold applyOutcome outcomeRec
  dsimp only
  by_cases h0 : im.data.length = 0
  · rw [if_pos h0, if_pos h0, if_neg (show ¬ dbFail im.id = true from by simp [hdb])]
    exact findRec_map_update_self acc.1 im.id (fun r => { r with optimized := true })
      (fun r => rfl) im hfound
  · rw [if_neg h0, if_neg h0]
    rcases ht : transform im.data im.mime with _ | ⟨data, same, mime⟩
    · dsimp only
      exact hfound
    · cases same
      · dsimp only
        rw [if_neg (show ¬ ((false : Bool) = true) from by decide),
          if_neg (show ¬ ((false : Bool) = true) from by decide),
          if_neg (show ¬ dbFail im.id = true from by simp [hdb])]
        exact findRec_map_update_self acc.1 im.id
          (fun r => { r with data := data, mime := mime, optimized := true, updatedAt := now })
          (fun r => rfl) im hfound
      · dsimp only
        rw [if_pos (show (true : Bool) = true from rfl),
          if_pos (show (true : Bool) = true from rfl),
          if_neg (show ¬ dbFail im.id = true from by simp [hdb])]
        exact findRec_map_update_self acc.1 im.id
          (fun r => { r with optimized := true, updatedAt := now })
          (fun r => rfl) im hfound

/-- A transform error leaves the store part of the step untouched. -/
lemma applyOutcome_error_store
    (transform : List Nat → String → Option (List Nat × Bool × String))
    (dbFail : Nat → Bool) (now : Nat) (acc : List ImageRec × optStats) (im : ImageRec)
    (h0 : im.data.length ≠ 0) (ht : transform im.data im.mime = none) :
    (applyOutcome transform dbFail now acc im).1 = acc.1 := by
  unfold applyOutcome
  dsimp only
  rw [if_neg h0, ht]

/-- A transform error makes the per-record outcome the record itself. -/
lemma outcomeRec_error
    (transform : List Nat → String → Option (List Nat × Bool × String))
    (now : Nat) (im : ImageRec) (h0 : im.data.length ≠ 0)
    (ht : transform im.data im.mime = none) :
    outcomeRec transform now im = im := by
  unfold outcomeRec
  rw [if_neg h0, ht]

/-- No collection-loop step changes `stats.found`. -/
lemma applyOutcome_found
    (transform : List Nat → String → Option (List Nat × Bool × String))
    (dbFail : Nat → Bool) (now : Nat) (acc : List ImageRec × optStats) (im : ImageRec) :
    (applyOutcome transform dbFail now acc im).2.found = acc.2.found := by
  unfold applyOutcome
  dsimp only
  by_cases h0 : im.data.length = 0
  · rw [if_pos h0]
    by_cases hdb : dbFail im.id = true
    · rw [if_pos hdb]
    · rw [if_neg hdb]
  · rw [if_neg h0]
    rcases ht : transform im.data im.mime with _ | ⟨data, same, mime⟩
    · rfl
    · cases same
      · dsimp only
        rw [if_neg (by decide)]
        by_cases hdb : dbFail im.id = true
        · rw [if_pos hdb]
        · rw [if_neg hdb]
      · dsimp only
        rw [if_pos rfl]
        by_cases hdb : dbFail im.id = true
        · rw [if_pos hdb]
        · rw [if_neg hdb]

/-- The fold of the collection loop preserves `stats.found`. -/
lemma foldl_applyOutcome_found
    (transform : List Nat → String → Option (List Nat × Bool × String))
    (dbFail : Nat → Bool) (now : Nat) :
    ∀ (ims : List ImageRec) (acc : List ImageRec × optStats),
      ((ims.foldl (applyOutcome transform dbFail now) acc).2).found = acc.2.found := by
  intro ims
  induction ims with
  | nil => intro acc; rfl
  | cons im tl ih =>
    intro acc
    rw [List.foldl_cons, ih, applyOutcome_found]

/-- One collection-loop step bumps `stats.decodeErrors` exactly on a
transform error of a non-empty record. -/
lemma applyOutcome_decodeErrors
    (transform : List Nat → String → Option (List Nat × Bool × String))
    (dbFail : Nat → Bool) (now : Nat) (acc : List ImageRec × optStats) (im : ImageRec) :
    (applyOutcome transform dbFail now acc im).2.decodeErrors =
      acc.2.decodeErrors +
        (if im.data.length ≠ 0 ∧ transform im.data im.mime = none then 1 else 0) := by
  unfold applyOutcome
  dsimp only
  by_cases h0 : im.data.length = 0
  · rw [if_neg (show ¬ (im.data.length ≠ 0 ∧ transform im.data im.mime = none) from
      fun hc => hc.1 h0), if_pos h0]
    by_cases hdb : dbFail im.id = true
    · rw [if_pos hdb]
      rfl
    · rw [if_neg hdb]
      rfl
  · rw [if_neg h0]
    rcases ht : transform im.data im.mime with _ | ⟨data, same, mime⟩
    · rw [if_pos (show im.data.length ≠ 0 ∧ (none : Option (List Nat × Bool × String)) = none
        from ⟨h0, rfl⟩)]
    · rw [if_neg (show ¬ (im.data.length ≠ 0 ∧
          (some (data, same, mime) : Option (List Nat × Bool × String)) = none) from
        fun hc => Option.noConfusion hc.2)]
      cases same
      · dsimp only
        rw [if_neg (show ¬ ((false : Bool) = true) from by decide)]
        by_cases hdb : dbFail im.id = true
        · rw [if_pos hdb]
          rfl
        · rw [if_neg hdb]
          rfl
      · dsimp only
        rw [if_pos (show (true : Bool) = true from rfl)]
        by_cases hdb : dbFail im.id = true
        · rw [if_pos hdb]
          rfl
        · rw [if_neg hdb]
          rfl

/-- The fold of the collection loop counts decode errors: one per selected
non-empty record whose transform fails. -/
lemma foldl_applyOutcome_decodeErrors
    (transform : List Nat → String → Option (List Nat × Bool × String))
    (dbFail : Nat → Bool) (now : Nat) :
    ∀ (ims : List ImageRec) (acc : List ImageRec × optStats),
      ((ims.foldl (applyOutcome transform dbFail now) acc).2).decodeErrors =
        acc.2.decodeErrors +
          (ims.filter fun im =>
            decide (im.data.length ≠ 0) && (transform im.data im.mime).isNone).length := by
  intro ims
  induction ims with
  | nil => intro acc; simp
  | cons im tl ih =>
    intro acc
    rw [List.foldl_cons, ih, applyOutcome_decodeErrors]
    by_cases hc : im.data.length ≠ 0 ∧ transform im.data im.mime = none
    · rw [if_pos hc]
      simp only [List.filter_cons]
      rw [if_pos (show (decide (im.data.length ≠ 0) && (transform im.data im.mime).isNone) = true
          from by simp [hc.1, hc.2])]
      rw [List.length_cons]
      omega
    · rw [if_neg hc]
      have hb : (decide (im.data.length ≠ 0) && (transform im.data im.mime).isNone) = false := by
        by_cases h0 : im.data.length = 0
        · simp [h0]
        · have hne : transform im.data im.mime ≠ none := fun he => hc ⟨h0, he⟩
          have hax : (transform im.data im.mime).isNone = false := by
            rcases htt : transform im.data im.mime with _ | x
            · exact absurd htt hne
            · rfl
          rw [hax, Bool.and_false]
      simp only [List.filter_cons]
      rw [if_neg (show ¬ ((decide (im.data.length ≠ 0) && (transform im.data im.mime).isNone) = true)
          from by rw [hb]; decide)]
      omega

/-- The selected batch is a sublist of the store. -/
lemma selection_sublist (store : List ImageRec) (limit : Nat) :
    (ListImagesToOptimize store limit).Sublist store :=
  (List.take_sublist _ _).trans (List.filter_sublist _)

/-- Every selected record is a store record that is still eligible. -/
lemma mem_selection (store : List ImageRec) (limit : Nat) (im : ImageRec)
    (h : im ∈ ListImagesToOptimize store limit) :
    im ∈ store ∧ im.optimized = false := by
  have h1 : im ∈ store.filter (fun r => !r.optimized) := List.take_subset _ _ h
  have h2 := List.mem_filter.mp h1
  exact ⟨h2.1, by simpa using h2.2⟩

/-- With distinct primary keys, looking up a member's id finds that member. -/
lemma find_of_mem_nodup (store : List ImageRec) (r : ImageRec)
    (hnd : (store.map ImageRec.id).Nodup) (hr : r ∈ store) :
    findRec store r.id = some r := by
  induction store with
  | nil => cases hr
  | cons a tl ih =>
    rcases List.mem_cons.mp hr with rfl | hrt
    · unfold findRec
      rw [List.find?_cons_of_pos _ (by simp)]
    · rw [List.map_cons, List.nodup_cons] at hnd
      have hane : a.id ≠ r.id := fun heq => hnd.1 (heq ▸ List.mem_map_of_mem _ hrt)
      unfold findRec
      rw [List.find?_cons_of_neg _ (by simp [hane])]
      exact ih hnd.2 hrt

/-- The record selected as `im` ends the batch with its own outcome persisted,
whenever its own write succeeds or it is a transform-error record (which never
writes): the fate of every sibling record — including failed sibling writes —
is irrelevant. -/
lemma batch_target
    (transform : List Nat → String → Option (List Nat × Bool × String))
    (dbFail : Nat → Bool) (now : Nat) (store : List ImageRec) (limit : Nat)
    (im : ImageRec) (hnd : (store.map ImageRec.id).Nodup)
    (him : im ∈ ListImagesToOptimize store limit)
    (hcase : dbFail im.id = false ∨
      (im.data.length ≠ 0 ∧ transform im.data im.mime = none)) :
    findRec (optimizeImagesBatch transform dbFail now store limit).1 im.id =
      some (outcomeRec transform now im) := by
  obtain ⟨pre, post, hsplit⟩ := List.append_of_mem him
  have hsub : (ListImagesToOptimize store limit).Sublist store := selection_sublist store limit
  have hselnd : ((ListImagesToOptimize store limit).map ImageRec.id).Nodup :=
    hnd.sublist (hsub.map ImageRec.id)
  rw [hsplit] at hselnd
  rw [List.map_append, List.map_cons, List.nodup_append] at hselnd
  have hpostnm : im.id ∉ post.map ImageRec.id := (List.nodup_cons.mp hselnd.2.1).1
  have hprenm : im.id ∉ pre.map ImageRec.id := fun hmem =>
    hselnd.2.2 hmem (List.mem_cons_self _ _)
  have hpre : ∀ x ∈ pre, x.id ≠ im.id := fun x hx heq =>
    hprenm (heq ▸ List.mem_map_of_mem _ hx)
  have hpost : ∀ x ∈ post, x.id ≠ im.id := fun x hx heq =>
    hpostnm (heq ▸ List.mem_map_of_mem _ hx)
  have him_store : im ∈ store := hsub.subset him
  have hstart : findRec store im.id = some im := find_of_mem_nodup store im hnd him_store
  unfold optimizeImagesBatch
  dsimp only
  rw [hsplit, List.foldl_append, List.foldl_cons]
  refine foldl_applyOutcome_preserve transform dbFail now im.id
    (outcomeRec transform now im) post hpost _ ?_
  rcases hcase with hdb | ⟨h0, ht⟩
  · exact applyOutcome_persists transform dbFail now _ im
      (foldl_applyOutcome_preserve transform dbFail now im.id im pre hpre _ hstart) hdb
  · rw [applyOutcome_error_store transform dbFail now _ im h0 ht,
      outcomeRec_error transform now im h0 ht]
    exact foldl_applyOutcome_preserve transform dbFail now im.id im pre hpre _ hstart

/-! ## Batch processor claims -/

/-- C1: idempotence of the batch processor — `ListImagesToOptimize` selects
only eligible (not-yet-optimized) records, and for every record `r` with
`optimized = true` before a batch run, the run leaves `r` byte-identical (its
`data`/`mime` are never re-written), for every transform, write-failure
pattern, and batch limit. -/
theorem c1_idempotence
    (transform : List Nat → String → Option (List Nat × Bool × String))
    (dbFail : Nat → Bool) (now : Nat) (store : List ImageRec) (limit : Nat)
    (r : ImageRec) (hnd : (store.map ImageRec.id).Nodup) (hr : r ∈ store)
    (hopt : r.optimized = true) :
    (∀ im ∈ ListImagesToOptimize store limit, im.optimized = false) ∧
    findRec (optimizeImagesBatch transform dbFail now store limit).1 r.id = some r := by
  constructor
  · intro im him
    exact (mem_selection store limit im him).2
  · unfold optimizeImagesBatch
    dsimp only
    apply foldl_applyOutcome_preserve transform dbFail now r.id r
    · intro im him heq
      have hm := mem_selection store limit im him
      have hir : im = r := List.inj_on_of_nodup_map hnd hm.1 hr heq
      rw [hir] at hm
      exact absurd hopt (by simp [hm.2])
    · exact find_of_mem_nodup store r hnd hr

/-- Witness store for `c1_idempotence`: one already-optimized record and one
eligible record. -/
def c1Store : List ImageRec :=
  [⟨1, [], "image/png", true, 0⟩, ⟨2, [7], "image/png", false, 0⟩]

/-- Witness for `c1_idempotence`: the optimized record survives a batch run
unchanged even though the sibling is processed. -/
theorem c1_idempotence_witness :
    findRec (optimizeImagesBatch (fun _ _ => none) (fun _ => false) 5 c1Store 10).1 1 =
      some ⟨1, [], "image/png", true, 0⟩ :=
  (c1_idempotence (fun _ _ => none) (fun _ => false) 5 c1Store 10
    ⟨1, [], "image/png", true, 0⟩ (by decide) (by decide) rfl).2

/-- C9: per-record outcome independence — the processor collects all found
results (`stats.found` equals the selection size), decode-error records are
exactly counted, a record whose transform fails is left completely untouched
in the store, and every record whose own store write succeeds gets its
outcome persisted regardless of all sibling outcomes and write failures. -/
theorem c9_outcome_independence
    (transform : List Nat → String → Option (List Nat × Bool × String))
    (dbFail : Nat → Bool) (now : Nat) (store : List ImageRec) (limit : Nat)
    (hnd : (store.map ImageRec.id).Nodup) :
    ((optimizeImagesBatch transform dbFail now store limit).2.found =
      (ListImagesToOptimize store limit).length) ∧
    ((optimizeImagesBatch transform dbFail now store limit).2.decodeErrors =
      ((ListImagesToOptimize store limit).filter fun im =>
        decide (im.data.length ≠ 0) && (transform im.data im.mime).isNone).length) ∧
    (∀ im ∈ ListImagesToOptimize store limit,
      im.data ≠ [] → transform im.data im.mime = none →
      findRec (optimizeImagesBatch transform dbFail now store limit).1 im.id = some im) ∧
    (∀ im ∈ ListImagesToOptimize store limit, dbFail im.id = false →
      findRec (optimizeImagesBatch transform dbFail now store limit).1 im.id =
        some (outcomeRec transform now im)) := by
  refine ⟨?_, ?_, ?_, ?_⟩
  · unfold optimizeImagesBatch
    dsimp only
    rw [foldl_applyOutcome_found]
  · unfold optimizeImagesBatch
    dsimp only
    rw [foldl_applyOutcome_decodeErrors]
    exact Nat.zero_add _
  · intro im him hne ht
    have h0 : im.data.length ≠ 0 := fun hl => hne (List.length_eq_zero.mp hl)
    have h := batch_target transform dbFail now store limit im hnd him (Or.inr ⟨h0, ht⟩)
    rwa [outcomeRec_error transform now im h0 ht] at h
  · intro im him hdb
    exact batch_target transform dbFail now store limit im hnd him (Or.inl hdb)

/-- Witness store for `c9_outcome_independence`: two eligible records. -/
def c9Store : List ImageRec :=
  [⟨2, [7], "image/png", false, 0⟩, ⟨3, [8], "image/png", false, 0⟩]

/-- Witness for `c9_outcome_independence`: record 3's no-change marking is
persisted even though record 2's store write fails in the same batch. -/
theorem c9_outcome_independence_witness :
    findRec (optimizeImagesBatch (fun d _ => some (d, true, "image/png"))
      (fun id => id == 2) 5 c9Store 10).1 3 =
      some ⟨3, [8], "image/png", true, 5⟩ := by
  have h := (c9_outcome_independence (fun d _ => some (d, true, "image/png"))
    (fun id => id == 2) 5 c9Store 10 (by decide)).2.2.2
    ⟨3, [8], "image/png", false, 0⟩ (by decide) (by decide)
  exact h

end Catwatch
